import Mathlib

/-!
Verification of the MCP Kanka server (src/index.mjs): a shallow embedding of
its upstream HTTP client, the five registered tools with their zod input
schemas, the legacy SSE session registry, the `/messages` post endpoint and
the startup sequence, together with a model of `JSON.stringify(·, null, 2)`
and a JSON parser used to state the serialization round-trip property.

JSON numeric values are modelled as integers (the upstream payloads are
JSON; JavaScript number formatting of integral values is decimal).
-/

namespace KankaServer

/-! ## JSON value model

JavaScript JSON values as returned by `res.json()` and consumed by
`JSON.stringify`.  Arrays and objects are modelled by mutual inductives so
that mutual structural induction is available. -/

mutual

inductive JVal : Type where
  | jnull : JVal
  | jbool : Bool → JVal
  | jnum : Int → JVal
  | jstr : String → JVal
  | jarr : JArr → JVal
  | jobj : JObj → JVal

inductive JArr : Type where
  | nil : JArr
  | cons : JVal → JArr → JArr

inductive JObj : Type where
  | nil : JObj
  | cons : String → JVal → JObj → JObj

end

mutual

def sizeV : JVal → Nat
  | .jnull => 1
  | .jbool _ => 1
  | .jnum _ => 1
  | .jstr _ => 1
  | .jarr a => sizeA a + 1
  | .jobj o => sizeO o + 1

def sizeA : JArr → Nat
  | .nil => 1
  | .cons v tl => sizeV v + sizeA tl + 1

def sizeO : JObj → Nat
  | .nil => 1
  | .cons _ v tl => sizeV v + sizeO tl + 1

end

/-! ## Decimal printing of numbers

`natPrintAux` is fuelled so that it reduces definitionally (needed for the
concrete witnesses); `natPrint n` prints `n` in decimal, `intPrint` adds the
sign, exactly as JavaScript string interpolation and `JSON.stringify` format
integral numbers. -/

def digitChar (d : Nat) : Char := Char.ofNat (48 + d)

def natPrintAux : Nat → Nat → List Char
  | 0, _ => []
  | f + 1, n =>
    if n < 10 then [digitChar n]
    else natPrintAux f (n / 10) ++ [digitChar (n % 10)]

def natPrint (n : Nat) : List Char := natPrintAux (n + 1) n

def intPrint (i : Int) : List Char :=
  if i < 0 then '-' :: natPrint i.natAbs else natPrint i.natAbs

/-- JavaScript number-to-string conversion for integral values, as a
`String` (used in URL template interpolation). -/
def jsNumToString (i : Int) : String := String.mk (intPrint i)

/-! ## String escaping (`JSON.stringify` quoting) -/

def hexDigitChar (d : Nat) : Char :=
  if d < 10 then Char.ofNat (48 + d) else Char.ofNat (87 + d)

/-- Escape of a single character inside a JSON string literal, following
`JSON.stringify`: the two-character escapes for quote, backslash and the
five named control characters, `\u00XX` for other control characters, and
the character itself otherwise. -/
def escapeChar (c : Char) : List Char :=
  if c = '"' then ['\\', '"']
  else if c = '\\' then ['\\', '\\']
  else if c = '\n' then ['\\', 'n']
  else if c = '\r' then ['\\', 'r']
  else if c = '\t' then ['\\', 't']
  else if c = Char.ofNat 8 then ['\\', 'b']
  else if c = Char.ofNat 12 then ['\\', 'f']
  else if c.toNat < 32 then
    ['\\', 'u', '0', '0', hexDigitChar (c.toNat / 16), hexDigitChar (c.toNat % 16)]
  else [c]

def escapeList : List Char → List Char
  | [] => []
  | c :: tl => escapeChar c ++ escapeList tl

def quoteStr (s : String) : List Char := '"' :: escapeList s.data ++ ['"']

/-! ## The pretty printer: `JSON.stringify(v, null, 2)`

`ind` is the current nesting depth; children of a composite are printed at
depth `ind + 1`, each on its own line prefixed by `2*(ind+1)` spaces, and
the closing bracket on its own line at `2*ind` spaces, exactly as
`JSON.stringify` with an indent argument of 2 formats values. -/

def indentChars (ind : Nat) : List Char := List.replicate (2 * ind) ' '

mutual

def printVal (ind : Nat) : JVal → List Char
  | .jnull => ['n', 'u', 'l', 'l']
  | .jbool true => ['t', 'r', 'u', 'e']
  | .jbool false => ['f', 'a', 'l', 's', 'e']
  | .jnum i => intPrint i
  | .jstr s => quoteStr s
  | .jarr .nil => ['[', ']']
  | .jarr (.cons v tl) =>
      '[' :: '\n' :: printArrItems (ind + 1) (.cons v tl) ++
        '\n' :: indentChars ind ++ [']']
  | .jobj .nil => ['{', '}']
  | .jobj (.cons k v tl) =>
      '{' :: '\n' :: printObjItems (ind + 1) (.cons k v tl) ++
        '\n' :: indentChars ind ++ ['}']

def printArrItems (ind : Nat) : JArr → List Char
  | .nil => []
  | .cons v .nil => indentChars ind ++ printVal ind v
  | .cons v (.cons w tl) =>
      indentChars ind ++ printVal ind v ++
        ',' :: '\n' :: printArrItems ind (.cons w tl)

def printObjItems (ind : Nat) : JObj → List Char
  | .nil => []
  | .cons k v .nil => indentChars ind ++ quoteStr k ++ ':' :: ' ' :: printVal ind v
  | .cons k v (.cons k2 w tl) =>
      indentChars ind ++ quoteStr k ++ ':' :: ' ' :: printVal ind v ++
        ',' :: '\n' :: printObjItems ind (.cons k2 w tl)

end

/-- The model of `JSON.stringify(v, null, 2)`. -/
def stringifyPretty (v : JVal) : String := String.mk (printVal 0 v)

/-! ## A JSON parser

Used to state the round-trip property for the pretty printer.  Numbers are
parsed as (optionally negated) decimal integers, matching the integral
number model. -/

def isWs (c : Char) : Bool := c = ' ' || c = '\n' || c = '\t' || c = '\r'

def isDigitCh (c : Char) : Bool := 48 ≤ c.toNat && c.toNat ≤ 57

def digitVal (c : Char) : Nat := c.toNat - 48

def headIsDigit : List Char → Bool
  | [] => false
  | c :: _ => isDigitCh c

def skipWs : List Char → List Char
  | [] => []
  | c :: tl => if isWs c then skipWs tl else c :: tl

def parseDigits : List Char → Nat → Nat × List Char
  | [], acc => (acc, [])
  | c :: tl, acc =>
    if isDigitCh c then parseDigits tl (acc * 10 + digitVal c) else (acc, c :: tl)

def hexVal (c : Char) : Option Nat :=
  if 48 ≤ c.toNat && c.toNat ≤ 57 then some (c.toNat - 48)
  else if 97 ≤ c.toNat && c.toNat ≤ 102 then some (c.toNat - 87)
  else if 65 ≤ c.toNat && c.toNat ≤ 70 then some (c.toNat - 55)
  else none

/-- Strip an expected literal from the front of the input. -/
def stripLit : List Char → List Char → Option (List Char)
  | [], s => some s
  | _ :: _, [] => none
  | p :: ps, c :: cs => if c = p then stripLit ps cs else none

/-- Parse the body of a JSON string literal (the opening quote already
consumed), undoing the escapes; returns the decoded characters and the
input after the closing quote. -/
def parseStrBody : List Char → Option (List Char × List Char)
  | [] => none
  | c :: tl =>
    if c = '"' then some ([], tl)
    else if c = '\\' then
      match tl with
      | [] => none
      | e :: tl2 =>
        if e = '"' then (parseStrBody tl2).map (fun p => ('"' :: p.1, p.2))
        else if e = '\\' then (parseStrBody tl2).map (fun p => ('\\' :: p.1, p.2))
        else if e = 'n' then (parseStrBody tl2).map (fun p => ('\n' :: p.1, p.2))
        else if e = 'r' then (parseStrBody tl2).map (fun p => ('\r' :: p.1, p.2))
        else if e = 't' then (parseStrBody tl2).map (fun p => ('\t' :: p.1, p.2))
        else if e = 'b' then (parseStrBody tl2).map (fun p => (Char.ofNat 8 :: p.1, p.2))
        else if e = 'f' then (parseStrBody tl2).map (fun p => (Char.ofNat 12 :: p.1, p.2))
        else if e = 'u' then
          match tl2 with
          | h1 :: h2 :: h3 :: h4 :: tl3 =>
            match hexVal h1, hexVal h2, hexVal h3, hexVal h4 with
            | some v1, some v2, some v3, some v4 =>
              (parseStrBody tl3).map
                (fun p => (Char.ofNat (4096 * v1 + 256 * v2 + 16 * v3 + v4) :: p.1, p.2))
            | _, _, _, _ => none
          | _ => none
        else none
    else (parseStrBody tl).map (fun p => (c :: p.1, p.2))

mutual

def parseVal : Nat → List Char → Option (JVal × List Char)
  | 0, _ => none
  | f + 1, cs =>
    match skipWs cs with
    | [] => none
    | c :: tl =>
      if c = 'n' then (stripLit ['u', 'l', 'l'] tl).map (fun r => (.jnull, r))
      else if c = 't' then (stripLit ['r', 'u', 'e'] tl).map (fun r => (.jbool true, r))
      else if c = 'f' then (stripLit ['a', 'l', 's', 'e'] tl).map (fun r => (.jbool false, r))
      else if c = '"' then (parseStrBody tl).map (fun p => (.jstr (String.mk p.1), p.2))
      else if c = '-' then
        match tl with
        | [] => none
        | d :: tl2 =>
          if isDigitCh d then
            let p := parseDigits tl2 (digitVal d)
            some (.jnum (-(p.1 : Int)), p.2)
          else none
      else if c = '[' then
        match skipWs tl with
        | [] => none
        | c2 :: tl2 =>
          if c2 = ']' then some (.jarr .nil, tl2)
          else (parseArrItems f (c2 :: tl2)).map (fun p => (.jarr p.1, p.2))
      else if c = '{' then
        match skipWs tl with
        | [] => none
        | c2 :: tl2 =>
          if c2 = '}' then some (.jobj .nil, tl2)
          else (parseObjItems f (c2 :: tl2)).map (fun p => (.jobj p.1, p.2))
      else if isDigitCh c then
        let p := parseDigits tl (digitVal c)
        some (.jnum (p.1 : Int), p.2)
      else none

def parseArrItems : Nat → List Char → Option (JArr × List Char)
  | 0, _ => none
  | f + 1, cs =>
    match parseVal f cs with
    | none => none
    | some (v, r) =>
      match skipWs r with
      | [] => none
      | c :: tl =>
        if c = ',' then (parseArrItems f tl).map (fun p => (.cons v p.1, p.2))
        else if c = ']' then some (.cons v .nil, tl)
        else none

def parseObjItems : Nat → List Char → Option (JObj × List Char)
  | 0, _ => none
  | f + 1, cs =>
    match skipWs cs with
    | [] => none
    | c :: tl =>
      if c = '"' then
        match parseStrBody tl with
        | none => none
        | some (k, r) =>
          match skipWs r with
          | [] => none
          | c2 :: r2 =>
            if c2 = ':' then
              match parseVal f r2 with
              | none => none
              | some (v, r3) =>
                match skipWs r3 with
                | [] => none
                | c3 :: r4 =>
                  if c3 = ',' then
                    (parseObjItems f r4).map (fun p => (.cons (String.mk k) v p.1, p.2))
                  else if c3 = '}' then some (.cons (String.mk k) v .nil, r4)
                  else none
            else none
      else none

end

/-- Parse a JSON document: a single value possibly surrounded by
whitespace. -/
def parseJson (s : String) : Option JVal :=
  match parseVal (s.data.length + 1) s.data with
  | some (v, rest) => if skipWs rest = [] then some v else none
  | none => none

/-! ## Round-trip lemmas: decimal numbers -/

theorem natPrintAux_eq (n : Nat) : ∀ f, n < f → natPrintAux f n = natPrint n := by
  induction n using Nat.strong_induction_on with
  | _ n IH =>
    intro f hf
    cases f with
    | zero => omega
    | succ f =>
      by_cases h10 : n < 10
      · simp [natPrintAux, natPrint, h10]
      · have hrec : n / 10 < n := Nat.div_lt_self (by omega) (by omega)
        have h1 : natPrintAux f (n / 10) = natPrint (n / 10) := IH _ hrec f (by omega)
        have h2 : natPrintAux n (n / 10) = natPrint (n / 10) := IH _ hrec n (by omega)
        simp [natPrintAux, natPrint, h10, h1, h2]

theorem natPrint_split (n : Nat) (h10 : ¬ n < 10) :
    natPrint n = natPrint (n / 10) ++ [digitChar (n % 10)] := by
  have hrec : n / 10 < n := Nat.div_lt_self (by omega) (by omega)
  show natPrintAux (n + 1) n = _
  simp [natPrintAux, h10, natPrintAux_eq (n / 10) n (by omega)]

theorem digitChar_facts (d : Nat) (h : d < 10) :
    isDigitCh (digitChar d) = true ∧ digitVal (digitChar d) = d ∧
    isWs (digitChar d) = false ∧
    digitChar d ≠ 'n' ∧ digitChar d ≠ 't' ∧ digitChar d ≠ 'f' ∧ digitChar d ≠ '"' ∧
    digitChar d ≠ '-' ∧ digitChar d ≠ '[' ∧ digitChar d ≠ '{' ∧ digitChar d ≠ ']' ∧
    digitChar d ≠ '}' ∧ digitChar d ≠ ',' ∧ digitChar d ≠ ' ' ∧ digitChar d ≠ '\n' ∧
    digitChar d ≠ '\t' ∧ digitChar d ≠ '\r' := by
  interval_cases d <;> decide

theorem natPrint_head (n : Nat) : ∃ d tl, natPrint n = digitChar d :: tl ∧ d < 10 := by
  induction n using Nat.strong_induction_on with
  | _ n IH =>
    by_cases h10 : n < 10
    · exact ⟨n, [], by simp [natPrint, natPrintAux, h10], h10⟩
    · obtain ⟨d, tl, hd, hlt⟩ := IH (n / 10) (Nat.div_lt_self (by omega) (by omega))
      exact ⟨d, tl ++ [digitChar (n % 10)], by simp [natPrint_split n h10, hd], hlt⟩

theorem parseDigits_print (n : Nat) : ∀ acc rest,
    parseDigits (natPrint n ++ rest) acc =
      parseDigits rest (acc * 10 ^ (natPrint n).length + n) := by
  induction n using Nat.strong_induction_on with
  | _ n IH =>
    intro acc rest
    by_cases h10 : n < 10
    · have h : natPrint n = [digitChar n] := by simp [natPrint, natPrintAux, h10]
      obtain ⟨hdig, hval, -⟩ := digitChar_facts n h10
      simp [h, parseDigits, hdig, hval]
    · have hsplit := natPrint_split n h10
      have hrec : n / 10 < n := Nat.div_lt_self (by omega) (by omega)
      obtain ⟨hdig, hval, -⟩ := digitChar_facts (n % 10) (Nat.mod_lt n (by omega))
      rw [hsplit, List.append_assoc, IH (n / 10) hrec acc _]
      simp only [List.singleton_append, parseDigits, hdig, hval, if_pos]
      have hlen : (natPrint (n / 10) ++ [digitChar (n % 10)]).length =
          (natPrint (n / 10)).length + 1 := by simp
      rw [hlen]
      congr 1
      have := Nat.div_add_mod n 10
      ring_nf
      omega

theorem parseDigits_stop (rest : List Char) (acc : Nat) (h : headIsDigit rest = false) :
    parseDigits rest acc = (acc, rest) := by
  cases rest with
  | nil => rfl
  | cons c tl => simp [headIsDigit] at h; simp [parseDigits, h]

theorem natPrint_ne_nil (n : Nat) : natPrint n ≠ [] := by
  obtain ⟨d, tl, hd, -⟩ := natPrint_head n
  simp [hd]

/-! ## Round-trip lemmas: whitespace -/

theorem skipWs_cons_ws (c : Char) (cs : List Char) (h : isWs c = true) :
    skipWs (c :: cs) = skipWs cs := by simp [skipWs, h]

theorem skipWs_cons_not (c : Char) (cs : List Char) (h : isWs c = false) :
    skipWs (c :: cs) = c :: cs := by simp [skipWs, h]

theorem skipWs_replicate_space (m : Nat) (cs : List Char) :
    skipWs (List.replicate m ' ' ++ cs) = skipWs cs := by
  induction m with
  | zero => rfl
  | succ m IH => simpa [List.replicate_succ, skipWs] using IH

theorem skipWs_indent (n : Nat) (cs : List Char) :
    skipWs (indentChars n ++ cs) = skipWs cs := skipWs_replicate_space _ cs

theorem skipWs_skipWs (cs : List Char) : skipWs (skipWs cs) = skipWs cs := by
  induction cs with
  | nil => rfl
  | cons c tl IH =>
    by_cases h : isWs c = true
    · simp [skipWs, h, IH]
    · simp at h
      simp [skipWs, h]

/-! ## Round-trip lemmas: string escaping -/

theorem hexDigitChar_hexVal (v : Nat) (h : v < 16) : hexVal (hexDigitChar v) = some v := by
  interval_cases v <;> decide

theorem parseStr_escape (cs : List Char) : ∀ rest,
    parseStrBody (escapeList cs ++ '"' :: rest) = some (cs, rest) := by
  induction cs with
  | nil =>
    intro rest
    show parseStrBody ('"' :: rest) = _
    rw [parseStrBody.eq_def]
    simp
  | cons c tl IH =>
    intro rest
    show parseStrBody ((escapeChar c ++ escapeList tl) ++ '"' :: rest) = _
    rw [List.append_assoc]
    by_cases h1 : c = '"'
    · subst h1; rw [show escapeChar '"' = ['\\', '"'] from rfl]
      rw [List.cons_append, List.cons_append, parseStrBody.eq_def]
      simp [IH]
    by_cases h2 : c = '\\'
    · subst h2; rw [show escapeChar '\\' = ['\\', '\\'] from rfl]
      rw [List.cons_append, List.cons_append, parseStrBody.eq_def]
      simp [IH]
    by_cases h3 : c = '\n'
    · subst h3; rw [show escapeChar '\n' = ['\\', 'n'] from rfl]
      rw [List.cons_append, List.cons_append, parseStrBody.eq_def]
      simp [IH]
    by_cases h4 : c = '\r'
    · subst h4; rw [show escapeChar '\r' = ['\\', 'r'] from rfl]
      rw [List.cons_append, List.cons_append, parseStrBody.eq_def]
      simp [IH]
    by_cases h5 : c = '\t'
    · subst h5; rw [show escapeChar '\t' = ['\\', 't'] from rfl]
      rw [List.cons_append, List.cons_append, parseStrBody.eq_def]
      simp [IH]
    by_cases h6 : c = Char.ofNat 8
    · subst h6; rw [show escapeChar (Char.ofNat 8) = ['\\', 'b'] from rfl]
      rw [List.cons_append, List.cons_append, parseStrBody.eq_def]
      simp [IH]
    by_cases h7 : c = Char.ofNat 12
    · subst h7; rw [show escapeChar (Char.ofNat 12) = ['\\', 'f'] from rfl]
      rw [List.cons_append, List.cons_append, parseStrBody.eq_def]
      simp [IH]
    by_cases h8 : c.toNat < 32
    · have e1 : escapeChar c = ['\\', 'u', '0', '0',
          hexDigitChar (c.toNat / 16), hexDigitChar (c.toNat % 16)] := by
        simp [escapeChar, h1, h2, h3, h4, h5, h6, h7, h8]
      have hv0 : hexVal '0' = some 0 := by decide
      have hv1 : hexVal (hexDigitChar (c.toNat / 16)) = some (c.toNat / 16) :=
        hexDigitChar_hexVal _ (by omega)
      have hv2 : hexVal (hexDigitChar (c.toNat % 16)) = some (c.toNat % 16) :=
        hexDigitChar_hexVal _ (by omega)
      have harith : 16 * (c.toNat / 16) + c.toNat % 16 = c.toNat := by omega
      have hchar : Char.ofNat (16 * (c.toNat / 16) + c.toNat % 16) = c := by
        rw [harith]; exact Char.ofNat_toNat c
      rw [e1]
      simp only [List.cons_append, List.nil_append, parseStrBody]
      simp only [hv0, hv1, hv2]
      simp [IH, hchar]
    · have e1 : escapeChar c = [c] := by
        simp [escapeChar, h1, h2, h3, h4, h5, h6, h7, h8]
      rw [e1]
      rw [List.cons_append, List.nil_append, parseStrBody.eq_def]
      simp [h1, h2, IH]

/-! ## Round-trip lemmas: shape of printed values -/

theorem printVal_head (ind : Nat) (v : JVal) :
    ∃ c t, printVal ind v = c :: t ∧ isWs c = false ∧ c ≠ ']' ∧ c ≠ '}' := by
  cases v with
  | jnull => exact ⟨'n', _, rfl, by decide, by decide, by decide⟩
  | jbool b =>
    cases b with
    | true => refine ⟨'t', _, rfl, rfl, by decide, by decide⟩
    | false => refine ⟨'f', _, rfl, rfl, by decide, by decide⟩
  | jnum i =>
    by_cases hi : i < 0
    · exact ⟨'-', natPrint i.natAbs, by simp [printVal, intPrint, hi],
        by decide, by decide, by decide⟩
    · obtain ⟨d, t, hd, hlt⟩ := natPrint_head i.natAbs
      obtain ⟨-, -, hws, -, -, -, -, -, -, -, hne1, hne2, -, -, -, -, -⟩ := digitChar_facts d hlt
      exact ⟨digitChar d, t, by simp [printVal, intPrint, hi, hd], hws, hne1, hne2⟩
  | jstr s => exact ⟨'"', _, rfl, by decide, by decide, by decide⟩
  | jarr a =>
    cases a with
    | nil => exact ⟨'[', _, rfl, by decide, by decide, by decide⟩
    | cons v tl => exact ⟨'[', _, rfl, by decide, by decide, by decide⟩
  | jobj o =>
    cases o with
    | nil => exact ⟨'{', _, rfl, by decide, by decide, by decide⟩
    | cons k v tl => exact ⟨'{', _, rfl, by decide, by decide, by decide⟩

mutual

theorem sizeV_le_printVal : (v : JVal) → (ind : Nat) → sizeV v ≤ (printVal ind v).length
  | .jnull, _ => by simp [sizeV, printVal]
  | .jbool true, _ => by simp [sizeV, printVal]
  | .jbool false, _ => by simp [sizeV, printVal]
  | .jnum i, _ => by
    have h := natPrint_ne_nil i.natAbs
    have hp : 0 < (natPrint i.natAbs).length := List.length_pos.mpr h
    by_cases hi : i < 0
    · simp [sizeV, printVal, intPrint, hi]
    · simp [sizeV, printVal, intPrint, hi]
      omega
  | .jstr s, _ => by simp [sizeV, printVal, quoteStr]
  | .jarr .nil, _ => by simp [sizeV, sizeA, printVal]
  | .jarr (.cons v tl), ind => by
    have h := sizeA_le_printArrItems (.cons v tl) (ind + 1) (by omega)
    simp only [sizeV, printVal, List.length_cons, List.length_append]
    omega
  | .jobj .nil, _ => by simp [sizeV, sizeO, printVal]
  | .jobj (.cons k v tl), ind => by
    have h := sizeO_le_printObjItems (.cons k v tl) (ind + 1) (by omega)
    simp only [sizeV, printVal, List.length_cons, List.length_append]
    omega

theorem sizeA_le_printArrItems : (a : JArr) → (ind : Nat) → 1 ≤ ind →
    sizeA a ≤ (printArrItems ind a).length + 1
  | .nil, _, _ => by simp [sizeA, printArrItems]
  | .cons v .nil, ind, h => by
    have hv := sizeV_le_printVal v ind
    simp only [sizeA, printArrItems, List.length_append, indentChars,
      List.length_replicate]
    omega
  | .cons v (.cons w tl), ind, h => by
    have hv := sizeV_le_printVal v ind
    have ht := sizeA_le_printArrItems (.cons w tl) ind h
    simp only [sizeA, printArrItems, List.length_append, List.length_cons,
      indentChars, List.length_replicate] at *
    omega

theorem sizeO_le_printObjItems : (o : JObj) → (ind : Nat) → 1 ≤ ind →
    sizeO o ≤ (printObjItems ind o).length + 1
  | .nil, _, _ => by simp [sizeO, printObjItems]
  | .cons k v .nil, ind, h => by
    have hv := sizeV_le_printVal v ind
    simp only [sizeO, printObjItems, List.length_append, List.length_cons,
      indentChars, List.length_replicate]
    omega
  | .cons k v (.cons k2 w tl), ind, h => by
    have hv := sizeV_le_printVal v ind
    have ht := sizeO_le_printObjItems (.cons k2 w tl) ind h
    simp only [sizeO, printObjItems, List.length_append, List.length_cons,
      indentChars, List.length_replicate] at *
    omega

end

/-! ## Round-trip lemmas: whitespace invariance of the parser -/

theorem parseVal_skipWs (f : Nat) (cs : List Char) :
    parseVal f (skipWs cs) = parseVal f cs := by
  cases f with
  | zero => rfl
  | succ f =>
    conv_lhs => rw [parseVal.eq_def]
    conv_rhs => rw [parseVal.eq_def]
    simp only [skipWs_skipWs]

theorem parseVal_cons_ws (f : Nat) (c : Char) (cs : List Char) (h : isWs c = true) :
    parseVal f (c :: cs) = parseVal f cs := by
  cases f with
  | zero => rfl
  | succ f =>
    conv_lhs => rw [parseVal.eq_def]
    conv_rhs => rw [parseVal.eq_def]
    simp only [skipWs_cons_ws c cs h]

theorem parseVal_indent (f n : Nat) (cs : List Char) :
    parseVal f (indentChars n ++ cs) = parseVal f cs := by
  cases f with
  | zero => rfl
  | succ f =>
    conv_lhs => rw [parseVal.eq_def]
    conv_rhs => rw [parseVal.eq_def]
    simp only [skipWs_indent]

theorem parseArrItems_skipWs (f : Nat) (cs : List Char) :
    parseArrItems f (skipWs cs) = parseArrItems f cs := by
  cases f with
  | zero => rfl
  | succ f =>
    conv_lhs => rw [parseArrItems.eq_def]
    conv_rhs => rw [parseArrItems.eq_def]
    simp only [parseVal_skipWs]

theorem parseArrItems_cons_ws (f : Nat) (c : Char) (cs : List Char) (h : isWs c = true) :
    parseArrItems f (c :: cs) = parseArrItems f cs := by
  cases f with
  | zero => rfl
  | succ f =>
    conv_lhs => rw [parseArrItems.eq_def]
    conv_rhs => rw [parseArrItems.eq_def]
    simp only [parseVal_cons_ws _ _ _ h]

theorem parseObjItems_skipWs (f : Nat) (cs : List Char) :
    parseObjItems f (skipWs cs) = parseObjItems f cs := by
  cases f with
  | zero => rfl
  | succ f =>
    conv_lhs => rw [parseObjItems.eq_def]
    conv_rhs => rw [parseObjItems.eq_def]
    simp only [skipWs_skipWs]

theorem parseObjItems_cons_ws (f : Nat) (c : Char) (cs : List Char) (h : isWs c = true) :
    parseObjItems f (c :: cs) = parseObjItems f cs := by
  cases f with
  | zero => rfl
  | succ f =>
    conv_lhs => rw [parseObjItems.eq_def]
    conv_rhs => rw [parseObjItems.eq_def]
    simp only [skipWs_cons_ws c cs h]

theorem sizeV_pos (v : JVal) : 1 ≤ sizeV v := by
  cases v <;> simp only [sizeV] <;> omega

theorem sizeA_pos (a : JArr) : 1 ≤ sizeA a := by
  cases a <;> simp only [sizeA] <;> omega

theorem sizeO_pos (o : JObj) : 1 ≤ sizeO o := by
  cases o <;> simp only [sizeO] <;> omega

theorem skipWs_printArrItems (ind : Nat) (a : JArr) (h : a ≠ JArr.nil) (Z : List Char) :
    ∃ c t, skipWs (printArrItems ind a ++ Z) = c :: t ∧ isWs c = false ∧
      c ≠ ']' ∧ c ≠ '}' := by
  cases a with
  | nil => exact absurd rfl h
  | cons v tl =>
    obtain ⟨c, t, hc, hws, h1, h2⟩ := printVal_head ind v
    cases tl with
    | nil =>
      have h0 : printArrItems ind (.cons v .nil) ++ Z =
          indentChars ind ++ (printVal ind v ++ Z) := by simp [printArrItems]
      rw [h0, skipWs_indent, hc, List.cons_append, skipWs_cons_not _ _ hws]
      exact ⟨c, _, rfl, hws, h1, h2⟩
    | cons w tl2 =>
      have h0 : printArrItems ind (.cons v (.cons w tl2)) ++ Z =
          indentChars ind ++ (printVal ind v ++
            (',' :: '\n' :: (printArrItems ind (.cons w tl2) ++ Z))) := by
        simp [printArrItems]
      rw [h0, skipWs_indent, hc, List.cons_append, skipWs_cons_not _ _ hws]
      exact ⟨c, _, rfl, hws, h1, h2⟩

theorem skipWs_printObjItems (ind : Nat) (o : JObj) (h : o ≠ JObj.nil) (Z : List Char) :
    ∃ t, skipWs (printObjItems ind o ++ Z) = '"' :: t := by
  cases o with
  | nil => exact absurd rfl h
  | cons k v tl =>
    cases tl with
    | nil =>
      have h0 : printObjItems ind (.cons k v .nil) ++ Z =
          indentChars ind ++ ('"' :: (escapeList k.data ++
            ('"' :: ':' :: ' ' :: (printVal ind v ++ Z)))) := by
        simp [printObjItems, quoteStr]
      rw [h0, skipWs_indent, skipWs_cons_not _ _ (by decide)]
      exact ⟨_, rfl⟩
    | cons k2 w tl2 =>
      have h0 : printObjItems ind (.cons k v (.cons k2 w tl2)) ++ Z =
          indentChars ind ++ ('"' :: (escapeList k.data ++
            ('"' :: ':' :: ' ' :: (printVal ind v ++
              (',' :: '\n' :: (printObjItems ind (.cons k2 w tl2) ++ Z)))))) := by
        simp [printObjItems, quoteStr]
      rw [h0, skipWs_indent, skipWs_cons_not _ _ (by decide)]
      exact ⟨_, rfl⟩


theorem roundtrip_main : ∀ f,
    (∀ v ind rest, sizeV v ≤ f → headIsDigit rest = false →
       parseVal f (printVal ind v ++ rest) = some (v, rest)) ∧
    (∀ a ind jnd rest, a ≠ JArr.nil → sizeA a ≤ f →
       parseArrItems f (printArrItems ind a ++ ('\n' :: (indentChars jnd ++ (']' :: rest)))) =
         some (a, rest)) ∧
    (∀ o ind jnd rest, o ≠ JObj.nil → sizeO o ≤ f →
       parseObjItems f (printObjItems ind o ++ ('\n' :: (indentChars jnd ++ ('}' :: rest)))) =
         some (o, rest)) := by
  intro f
  induction f using Nat.strong_induction_on with
  | _ f IH =>
    cases f with
    | zero =>
      refine ⟨?_, ?_, ?_⟩
      · intro v ind rest hs _
        have := sizeV_pos v
        omega
      · intro a ind jnd rest _ hs
        have := sizeA_pos a
        omega
      · intro o ind jnd rest _ hs
        have := sizeO_pos o
        omega
    | succ f =>
      obtain ⟨Pf, Qf, Rf⟩ := IH f (by omega)
      refine ⟨?_, ?_, ?_⟩
      · intro v ind rest hs hrest
        cases v with
        | jnull =>
          rw [show printVal ind .jnull ++ rest = 'n' :: 'u' :: 'l' :: 'l' :: rest from rfl]
          rw [parseVal.eq_def]
          simp [skipWs, stripLit, isWs]
        | jbool b =>
          cases b with
          | true =>
            rw [show printVal ind (.jbool true) ++ rest = 't' :: 'r' :: 'u' :: 'e' :: rest from rfl]
            rw [parseVal.eq_def]
            simp [skipWs, stripLit, isWs]
          | false =>
            rw [show printVal ind (.jbool false) ++ rest =
              'f' :: 'a' :: 'l' :: 's' :: 'e' :: rest from rfl]
            rw [parseVal.eq_def]
            simp [skipWs, stripLit, isWs]
        | jnum i =>
          obtain ⟨d, t, hd, hlt⟩ := natPrint_head i.natAbs
          obtain ⟨hdig, hval, hws, hn1, hn2, hn3, hn4, hn5, hn6, hn7, -, -, -,
            hw1, hw2, hw3, hw4⟩ := digitChar_facts d hlt
          have key : parseDigits (t ++ rest) d = (i.natAbs, rest) := by
            have h1 : parseDigits (natPrint i.natAbs ++ rest) 0 = (i.natAbs, rest) := by
              rw [parseDigits_print]
              simpa using parseDigits_stop rest i.natAbs hrest
            rw [hd] at h1
            simpa [parseDigits, hdig, hval] using h1
          by_cases hi : i < 0
          · have h0 : printVal ind (.jnum i) ++ rest = '-' :: (digitChar d :: (t ++ rest)) := by
              simp [printVal, intPrint, hi, hd]
            have hieq : -|i| = i := by
              rw [abs_of_neg hi, neg_neg]
            rw [h0, parseVal.eq_def]
            simp [skipWs, isWs, hdig, hval, hn1, hn2, hn3, hn4, key, hieq]
          · have h0 : printVal ind (.jnum i) ++ rest = digitChar d :: (t ++ rest) := by
              simp [printVal, intPrint, hi, hd]
            have hieq : |i| = i := abs_of_nonneg (by omega)
            rw [h0, parseVal.eq_def]
            simp [skipWs, isWs, hdig, hval, hn1, hn2, hn3, hn4, hn5, hn6, hn7,
              hw1, hw2, hw3, hw4, key, hieq]
        | jstr s =>
          obtain ⟨sd⟩ := s
          have h0 : printVal ind (.jstr ⟨sd⟩) ++ rest =
              '"' :: (escapeList sd ++ '"' :: rest) := by
            simp [printVal, quoteStr]
          rw [h0, parseVal.eq_def]
          simp [skipWs, isWs, parseStr_escape sd rest]
        | jarr a =>
          cases a with
          | nil =>
            rw [show printVal ind (.jarr .nil) ++ rest = '[' :: ']' :: rest from rfl]
            rw [parseVal.eq_def]
            simp [skipWs, isWs]
          | cons v tl =>
            have hsz : sizeA (JArr.cons v tl) ≤ f := by
              simp only [sizeV] at hs
              omega
            have h0 : printVal ind (.jarr (.cons v tl)) ++ rest =
                '[' :: '\n' :: (printArrItems (ind + 1) (.cons v tl) ++
                  ('\n' :: (indentChars ind ++ (']' :: rest)))) := by
              simp [printVal]
            obtain ⟨c0, t0, hsk, hws0, hne0, -⟩ :=
              skipWs_printArrItems (ind + 1) (.cons v tl) (by simp)
                ('\n' :: (indentChars ind ++ (']' :: rest)))
            have harr : parseArrItems f (c0 :: t0) = some (JArr.cons v tl, rest) := by
              rw [← hsk, parseArrItems_skipWs]
              exact Qf _ (ind + 1) ind rest (by simp) hsz
            rw [h0, parseVal.eq_def]
            simp [skipWs, isWs, hsk, hne0, harr]
        | jobj o =>
          cases o with
          | nil =>
            rw [show printVal ind (.jobj .nil) ++ rest = '{' :: '}' :: rest from rfl]
            rw [parseVal.eq_def]
            simp [skipWs, isWs]
          | cons k v tl =>
            have hsz : sizeO (JObj.cons k v tl) ≤ f := by
              simp only [sizeV] at hs
              omega
            have h0 : printVal ind (.jobj (.cons k v tl)) ++ rest =
                '{' :: '\n' :: (printObjItems (ind + 1) (.cons k v tl) ++
                  ('\n' :: (indentChars ind ++ ('}' :: rest)))) := by
              simp [printVal]
            obtain ⟨t1, hsk⟩ :=
              skipWs_printObjItems (ind + 1) (.cons k v tl) (by simp)
                ('\n' :: (indentChars ind ++ ('}' :: rest)))
            have hobj : parseObjItems f ('"' :: t1) = some (JObj.cons k v tl, rest) := by
              rw [← hsk, parseObjItems_skipWs]
              exact Rf _ (ind + 1) ind rest (by simp) hsz
            rw [h0, parseVal.eq_def]
            simp [skipWs, isWs, hsk, hobj]
      · intro a ind jnd rest ha hsz
        cases a with
        | nil => exact absurd rfl ha
        | cons v tl =>
          cases tl with
          | nil =>
            have hsv : sizeV v ≤ f := by
              simp only [sizeA] at hsz
              omega
            have hv : parseVal f (indentChars ind ++ (printVal ind v ++
                ('\n' :: (indentChars jnd ++ (']' :: rest))))) =
                some (v, '\n' :: (indentChars jnd ++ (']' :: rest))) := by
              rw [parseVal_indent]
              exact Pf v ind _ hsv rfl
            have h0 : printArrItems ind (.cons v .nil) ++
                ('\n' :: (indentChars jnd ++ (']' :: rest))) =
                indentChars ind ++ (printVal ind v ++
                  ('\n' :: (indentChars jnd ++ (']' :: rest)))) := by
              simp [printArrItems]
            rw [h0, parseArrItems.eq_def]
            simp [hv, skipWs, isWs, skipWs_indent]
          | cons w tl2 =>
            have hsv : sizeV v ≤ f := by
              simp only [sizeA] at hsz
              omega
            have hst : sizeA (JArr.cons w tl2) ≤ f := by
              simp only [sizeA] at hsz ⊢
              omega
            have hv : parseVal f (indentChars ind ++ (printVal ind v ++
                (',' :: '\n' :: (printArrItems ind (.cons w tl2) ++
                  ('\n' :: (indentChars jnd ++ (']' :: rest))))))) =
                some (v, ',' :: '\n' :: (printArrItems ind (.cons w tl2) ++
                  ('\n' :: (indentChars jnd ++ (']' :: rest))))) := by
              rw [parseVal_indent]
              exact Pf v ind _ hsv rfl
            have hrec : parseArrItems f ('\n' :: (printArrItems ind (.cons w tl2) ++
                ('\n' :: (indentChars jnd ++ (']' :: rest))))) =
                some (JArr.cons w tl2, rest) := by
              rw [parseArrItems_cons_ws _ _ _ (by decide)]
              exact Qf _ ind jnd rest (by simp) hst
            have h0 : printArrItems ind (.cons v (.cons w tl2)) ++
                ('\n' :: (indentChars jnd ++ (']' :: rest))) =
                indentChars ind ++ (printVal ind v ++
                  (',' :: '\n' :: (printArrItems ind (.cons w tl2) ++
                    ('\n' :: (indentChars jnd ++ (']' :: rest)))))) := by
              simp [printArrItems]
            rw [h0, parseArrItems.eq_def]
            simp [hv, skipWs, isWs, hrec]
      · intro o ind jnd rest ho hsz
        cases o with
        | nil => exact absurd rfl ho
        | cons k v tl =>
          obtain ⟨kd⟩ := k
          cases tl with
          | nil =>
            have hsv : sizeV v ≤ f := by
              simp only [sizeO] at hsz
              omega
            have hv : parseVal f (' ' :: (printVal ind v ++
                ('\n' :: (indentChars jnd ++ ('}' :: rest))))) =
                some (v, '\n' :: (indentChars jnd ++ ('}' :: rest))) := by
              rw [parseVal_cons_ws _ _ _ (by decide)]
              exact Pf v ind _ hsv rfl
            have h0 : printObjItems ind (.cons ⟨kd⟩ v .nil) ++
                ('\n' :: (indentChars jnd ++ ('}' :: rest))) =
                indentChars ind ++ ('"' :: (escapeList kd ++ ('"' :: ':' :: ' ' ::
                  (printVal ind v ++ ('\n' :: (indentChars jnd ++ ('}' :: rest))))))) := by
              simp [printObjItems, quoteStr]
            rw [h0, parseObjItems.eq_def]
            simp [skipWs, isWs, skipWs_indent, parseStr_escape, hv]
          | cons k2 w tl2 =>
            have hsv : sizeV v ≤ f := by
              simp only [sizeO] at hsz
              omega
            have hst : sizeO (JObj.cons k2 w tl2) ≤ f := by
              simp only [sizeO] at hsz ⊢
              omega
            have hv : parseVal f (' ' :: (printVal ind v ++
                (',' :: '\n' :: (printObjItems ind (.cons k2 w tl2) ++
                  ('\n' :: (indentChars jnd ++ ('}' :: rest))))))) =
                some (v, ',' :: '\n' :: (printObjItems ind (.cons k2 w tl2) ++
                  ('\n' :: (indentChars jnd ++ ('}' :: rest))))) := by
              rw [parseVal_cons_ws _ _ _ (by decide)]
              exact Pf v ind _ hsv rfl
            have hrec : parseObjItems f ('\n' :: (printObjItems ind (.cons k2 w tl2) ++
                ('\n' :: (indentChars jnd ++ ('}' :: rest))))) =
                some (JObj.cons k2 w tl2, rest) := by
              rw [parseObjItems_cons_ws _ _ _ (by decide)]
              exact Rf _ ind jnd rest (by simp) hst
            have h0 : printObjItems ind (.cons ⟨kd⟩ v (.cons k2 w tl2)) ++
                ('\n' :: (indentChars jnd ++ ('}' :: rest))) =
                indentChars ind ++ ('"' :: (escapeList kd ++ ('"' :: ':' :: ' ' ::
                  (printVal ind v ++ (',' :: '\n' :: (printObjItems ind (.cons k2 w tl2) ++
                    ('\n' :: (indentChars jnd ++ ('}' :: rest))))))))) := by
              simp [printObjItems, quoteStr]
            rw [h0, parseObjItems.eq_def]
            simp [skipWs, isWs, skipWs_indent, parseStr_escape, hv, hrec]

/-- Round-trip of the pretty printer: parsing `JSON.stringify(v, null, 2)`
recovers `v` exactly. -/
theorem stringify_parse_roundtrip (v : JVal) : parseJson (stringifyPretty v) = some v := by
  have hsize : sizeV v ≤ (printVal 0 v).length := sizeV_le_printVal v 0
  have hP := (roundtrip_main ((printVal 0 v).length + 1)).1 v 0 [] (by omega) rfl
  simp only [List.append_nil] at hP
  show (match parseVal ((printVal 0 v).length + 1) (printVal 0 v) with
    | some (v, rest) => if skipWs rest = [] then some v else none
    | none => none) = some v
  rw [hP]
  simp [skipWs]

/-! ## Process environment and configuration (src/index.mjs, lines 10-18) -/

/-- The relevant `process.env` entries.  `port` abstracts
`Number(process.env.PORT || 3030)` (numeric string parsing is incidental
and not touched by any property below). -/
structure Env where
  kankaToken : Option String
  kankaCampaignId : Option String
  port : Option Nat

/-- JavaScript truthiness of a string-or-`undefined` value: `undefined`
and the empty string are falsy, every other string is truthy. -/
def jsTruthy : Option String → Bool
  | none => false
  | some s => !(s == "")

/-- `a || b` on string-or-`undefined` operands. -/
def jsOrStr (a b : Option String) : Option String :=
  if jsTruthy a then a else b

/-- `const DEFAULT_CAMPAIGN_ID = process.env.KANKA_CAMPAIGN_ID || null;`. -/
def defaultCampaignId (env : Env) : Option String :=
  if jsTruthy env.kankaCampaignId then env.kankaCampaignId else none

/-- `const PORT = Number(process.env.PORT || 3030);`. -/
def portOf (env : Env) : Nat := env.port.getD 3030

/-! ## Upstream client `kanka` (lines 20-34) -/

def KANKA_BASE : String := "https://kanka.io/api/1.0"

/-- The upstream HTTP response as observed by `kanka`: `bodyTextRead =
none` models a rejected `res.text()` (the `.catch(() => '')` case);
`jsonBody = none` models a body that is not valid JSON. -/
structure HttpResponse where
  status : Nat
  statusText : String
  bodyTextRead : Option String
  jsonBody : Option JVal

/-- `res.ok` of the fetch API: status in the inclusive range 200..299. -/
def resOk (r : HttpResponse) : Bool := 200 ≤ r.status && r.status ≤ 299

inductive KankaResult : Type where
  | success : JVal → KankaResult
  | upstreamError : Nat → String → String → KankaResult
  | jsonParseError : KankaResult

/-- The message of the `Error` thrown on a non-2xx response:
``Kanka ${res.status} ${res.statusText}: ${txt}``. -/
def upstreamErrorMessage (status : Nat) (statusText txt : String) : String :=
  "Kanka " ++ jsNumToString status ++ " " ++ statusText ++ ": " ++ txt

/-- The request headers `kanka` sends (before caller overrides). -/
def kankaHeaders (token : String) : List (String × String) :=
  [("Authorization", "Bearer " ++ token), ("Content-Type", "application/json")]

/-- The behaviour of `kanka(path)` on the response the fetch resolved to:
non-2xx fails with status, status text and best-effort body text; 2xx
parses the body as JSON. -/
def kanka (resp : HttpResponse) : KankaResult :=
  if resOk resp then
    match resp.jsonBody with
    | some j => .success j
    | none => .jsonParseError
  else
    .upstreamError resp.status resp.statusText (resp.bodyTextRead.getD "")

/-! ## `encodeURIComponent` (used by the search tool, line 109) -/

def utf8Bytes (c : Char) : List Nat :=
  let n := c.toNat
  if n < 128 then [n]
  else if n < 2048 then [192 + n / 64, 128 + n % 64]
  else if n < 65536 then [224 + n / 4096, 128 + (n / 64) % 64, 128 + n % 64]
  else [240 + n / 262144, 128 + (n / 4096) % 64, 128 + (n / 64) % 64, 128 + n % 64]

def isUnreservedURIChar (c : Char) : Bool :=
  ('A' ≤ c && c ≤ 'Z') || ('a' ≤ c && c ≤ 'z') || ('0' ≤ c && c ≤ '9') ||
    c = '-' || c = '_' || c = '.' || c = '!' || c = '~' || c = '*' ||
    c = '\'' || c = '(' || c = ')'

def hexDigitUpper (d : Nat) : Char :=
  if d < 10 then Char.ofNat (48 + d) else Char.ofNat (55 + d)

def percentEncodeByte (b : Nat) : List Char :=
  ['%', hexDigitUpper (b / 16), hexDigitUpper (b % 16)]

def encodeURIComponent (s : String) : String :=
  String.mk (s.data.map (fun c =>
    if isUnreservedURIChar c then [c]
    else ((utf8Bytes c).map percentEncodeByte).flatten)).flatten

/-! ## The five tools (lines 41-126)

Each handler is a function of the environment, an oracle giving the
upstream response for each requested path, and its (already validated)
arguments.  A `ToolOutcome` records the list of upstream requests the
invocation issued together with its result, so that "no upstream call is
made" is a provable statement. -/

structure UpstreamRequest where
  path : String
  method : String

inductive ContentBlock : Type where
  | text : String → ContentBlock

inductive ToolError : Type where
  | configError : String → ToolError
  | upstream : Nat → String → String → ToolError
  | jsonParseError : ToolError
  | validationError : ToolError

inductive ToolResult : Type where
  | content : List ContentBlock → ToolResult
  | error : ToolError → ToolResult

structure ToolOutcome where
  requests : List UpstreamRequest
  result : ToolResult

/-- The error message thrown when no campaign id can be resolved. -/
def missingCampaignMsg : String :=
  "campaign_id mancante e KANKA_CAMPAIGN_ID non impostato"

def noCallConfigError : ToolOutcome :=
  ⟨[], .error (.configError missingCampaignMsg)⟩

/-- `await kanka(path)` followed by
`return { content: [{ type: 'text', text: JSON.stringify(data, null, 2) }] }`. -/
def runGet (oracle : String → HttpResponse) (path : String) : ToolOutcome :=
  ⟨[⟨path, "GET"⟩],
    match kanka (oracle path) with
    | .success j => .content [.text (stringifyPretty j)]
    | .upstreamError s st b => .error (.upstream s st b)
    | .jsonParseError => .error .jsonParseError⟩

def listCampaignsPath : String := "/campaigns"

def listEntitiesPath (cid entity : String) : String :=
  "/campaigns/" ++ cid ++ "/" ++ entity ++ "?page=1&limit=100"

def getEntityPath (cid entity : String) (id : Int) : String :=
  "/campaigns/" ++ cid ++ "/" ++ entity ++ "/" ++ jsNumToString id

def searchByNamePath (cid entity name : String) : String :=
  "/campaigns/" ++ cid ++ "/" ++ entity ++ "?name=" ++
    encodeURIComponent name ++ "&page=1&limit=50"

def listCampaignsHandler (oracle : String → HttpResponse) : ToolOutcome :=
  runGet oracle listCampaignsPath

def listEntitiesHandler (env : Env) (oracle : String → HttpResponse)
    (campaign_id : Option String) (entity : String) : ToolOutcome :=
  match jsOrStr campaign_id (defaultCampaignId env) with
  | none => noCallConfigError
  | some cid =>
    if cid = "" then noCallConfigError
    else runGet oracle (listEntitiesPath cid entity)

def getEntityHandler (env : Env) (oracle : String → HttpResponse)
    (campaign_id : Option String) (entity : String) (id : Int) : ToolOutcome :=
  match jsOrStr campaign_id (defaultCampaignId env) with
  | none => noCallConfigError
  | some cid =>
    if cid = "" then noCallConfigError
    else runGet oracle (getEntityPath cid entity id)

def searchByNameHandler (env : Env) (oracle : String → HttpResponse)
    (campaign_id : Option String) (entity name : String) : ToolOutcome :=
  match jsOrStr campaign_id (defaultCampaignId env) with
  | none => noCallConfigError
  | some cid =>
    if cid = "" then noCallConfigError
    else runGet oracle (searchByNamePath cid entity name)

def rawGetHandler (oracle : String → HttpResponse) (path : String) : ToolOutcome :=
  runGet oracle path

/-! ## Input schemas and validation (the `inputSchema` fields)

The zod object schemas of the five tools: `z.string()` / `z.number()` and
`.optional()`.  Validation of an invocation's arguments happens in the
MCP server before the handler runs: a required key must be present, and a
present key must have the declared type. -/

inductive ParamType : Type where
  | pstring : ParamType
  | pnumber : ParamType

structure ParamSpec where
  ptype : ParamType
  required : Bool

def listCampaignsSchema : List (String × ParamSpec) := []

def listEntitiesSchema : List (String × ParamSpec) :=
  [("campaign_id", ⟨.pstring, false⟩), ("entity", ⟨.pstring, true⟩)]

def getEntitySchema : List (String × ParamSpec) :=
  [("campaign_id", ⟨.pstring, false⟩), ("entity", ⟨.pstring, true⟩),
    ("id", ⟨.pnumber, true⟩)]

def searchByNameSchema : List (String × ParamSpec) :=
  [("campaign_id", ⟨.pstring, false⟩), ("entity", ⟨.pstring, true⟩),
    ("name", ⟨.pstring, true⟩)]

def rawGetSchema : List (String × ParamSpec) :=
  [("path", ⟨.pstring, true⟩)]

/-- The fixed set of entity-type names listed in the `entity` parameter's
description string of `kanka_list_entities`. -/
def entityTypeNames : List String :=
  ["characters", "locations", "items", "families", "notes", "journals",
    "quests", "organizations", "races", "events", "tags", "abilities",
    "calendars", "dice_rolls"]

def checkType : ParamType → JVal → Bool
  | .pstring, .jstr _ => true
  | .pnumber, .jnum _ => true
  | _, _ => false

def validateArgs (schema : List (String × ParamSpec))
    (args : List (String × JVal)) : Bool :=
  schema.all (fun p =>
    match List.lookup p.1 args with
    | none => !p.2.required
    | some v => checkType p.2.ptype v)

def getStrArg (args : List (String × JVal)) (n : String) : Option String :=
  match List.lookup n args with
  | some (.jstr s) => some s
  | _ => none

def getStrArgD (args : List (String × JVal)) (n : String) : String :=
  (getStrArg args n).getD ""

def getNumArgD (args : List (String × JVal)) (n : String) : Int :=
  match List.lookup n args with
  | some (.jnum i) => i
  | _ => 0

inductive ToolName : Type where
  | listCampaigns : ToolName
  | listEntities : ToolName
  | getEntity : ToolName
  | searchByName : ToolName
  | rawGet : ToolName

def schemaOf : ToolName → List (String × ParamSpec)
  | .listCampaigns => listCampaignsSchema
  | .listEntities => listEntitiesSchema
  | .getEntity => getEntitySchema
  | .searchByName => searchByNameSchema
  | .rawGet => rawGetSchema

/-- A tool invocation: schema validation first, the handler only when
validation succeeds (a validation failure reaches no handler and issues
no upstream request). -/
def callTool (env : Env) (oracle : String → HttpResponse)
    (t : ToolName) (args : List (String × JVal)) : ToolOutcome :=
  if validateArgs (schemaOf t) args then
    match t with
    | .listCampaigns => listCampaignsHandler oracle
    | .listEntities =>
        listEntitiesHandler env oracle (getStrArg args "campaign_id")
          (getStrArgD args "entity")
    | .getEntity =>
        getEntityHandler env oracle (getStrArg args "campaign_id")
          (getStrArgD args "entity") (getNumArgD args "id")
    | .searchByName =>
        searchByNameHandler env oracle (getStrArg args "campaign_id")
          (getStrArgD args "entity") (getStrArgD args "name")
    | .rawGet => rawGetHandler oracle (getStrArgD args "path")
  else ⟨[], .error .validationError⟩

/-! ## The legacy SSE session registry (lines 139-153)

State machine of `sseTransports`: `registry` is the key set of the map,
`subscribed` the session identifiers ever handed out on `GET /sse`, and
`closed` those whose connection has emitted `close`.  A subscribe uses a
fresh transport-generated identifier; the `close` handler of an open
connection deletes its entry. -/

structure SSEState where
  registry : List String
  subscribed : List String
  closed : List String

def connOpen (s : SSEState) (sid : String) : Prop :=
  sid ∈ s.subscribed ∧ sid ∉ s.closed

inductive SSEEvent : Type where
  | subscribe : String → SSEEvent
  | close : String → SSEEvent

inductive SSEStep : SSEState → SSEEvent → SSEState → Prop where
  | subscribe (s : SSEState) (sid : String) (hfresh : sid ∉ s.subscribed) :
      SSEStep s (.subscribe sid) ⟨sid :: s.registry, sid :: s.subscribed, s.closed⟩
  | close (s : SSEState) (sid : String) (hsub : sid ∈ s.subscribed)
      (hnc : sid ∉ s.closed) :
      SSEStep s (.close sid) ⟨s.registry.erase sid, s.subscribed, sid :: s.closed⟩

inductive SSEReachable : SSEState → Prop where
  | init : SSEReachable ⟨[], [], []⟩
  | step {s : SSEState} {e : SSEEvent} {s' : SSEState} :
      SSEReachable s → SSEStep s e s' → SSEReachable s'

/-! ## `POST /messages` (lines 148-153) -/

/-- `sseTransports[sessionId]` where `sessionId = req.query.sessionId`
(which may be absent). -/
def lookupSession (reg : List String) (sessionId : Option String) : Option String :=
  match sessionId with
  | none => none
  | some s => if s ∈ reg then some s else none

inductive PostOutcome : Type where
  | clientError : Nat → String → PostOutcome
  | dispatched : String → PostOutcome

/-- The `POST /messages` handler: look the session up; on a miss reply
`res.status(400).send('No transport for sessionId')`, otherwise dispatch
the message to the matching transport.  The returned state is the
registry after the request. -/
def postMessages (reg : List String) (sessionId : Option String) :
    PostOutcome × List String :=
  match lookupSession reg sessionId with
  | none => (.clientError 400 "No transport for sessionId", reg)
  | some sid => (.dispatched sid, reg)

/-! ## Startup (lines 11-18 and 377-381) -/

inductive StartupResult : Type where
  | exited : Nat → StartupResult
  | listening : Nat → StartupResult

/-- The top-level script: read `TOKEN`, exit with code 1 when it is falsy
(before any server object is created), otherwise eventually bind the
listen port. -/
def startup (env : Env) : StartupResult :=
  if jsTruthy env.kankaToken = false then .exited 1
  else .listening (portOf env)

/-! ## Helper lemmas about the embedding -/

/-- The registry invariant of the legacy SSE session map, by induction
over reachability: the key set has no duplicates, every closed session
was subscribed, and a session is registered exactly while its connection
is open. -/
theorem sse_invariant (s : SSEState) (h : SSEReachable s) :
    s.registry.Nodup ∧ (∀ sid, sid ∈ s.closed → sid ∈ s.subscribed) ∧
    (∀ sid, sid ∈ s.registry ↔ (sid ∈ s.subscribed ∧ sid ∉ s.closed)) := by
  induction h with
  | init => simp
  | step hr hstep IH =>
    obtain ⟨hnd, hcs, hiff⟩ := IH
    cases hstep with
    | subscribe sid hfresh =>
      refine ⟨?_, ?_, ?_⟩
      · exact List.nodup_cons.mpr ⟨fun hmem => hfresh ((hiff sid).mp hmem).1, hnd⟩
      · intro x hx
        exact List.mem_cons_of_mem _ (hcs x hx)
      · intro x
        by_cases hx : x = sid
        · subst hx
          constructor
          · intro
            exact ⟨List.mem_cons_self _ _, fun hc => hfresh (hcs _ hc)⟩
          · intro
            exact List.mem_cons_self _ _
        · show x ∈ sid :: _ ↔ x ∈ sid :: _ ∧ _
          simp only [List.mem_cons, hx, false_or]
          exact hiff x
    | close sid hsub hnc =>
      refine ⟨hnd.erase sid, ?_, ?_⟩
      · intro x hx
        rcases List.mem_cons.mp hx with h1 | h1
        · subst h1
          exact hsub
        · exact hcs x h1
      · intro x
        by_cases hx : x = sid
        · subst hx
          simp [hnd.not_mem_erase]
        · rw [show (SSEState.mk (List.erase _ sid) _ (sid :: _)).registry =
            List.erase _ sid from rfl]
          rw [List.mem_erase_of_ne hx, hiff x]
          simp [List.mem_cons, hx]

/-- A schema row with a required name that is absent from the arguments
makes validation fail. -/
theorem validateArgs_false_missing (schema : List (String × ParamSpec))
    (args : List (String × JVal)) (n : String) (sp : ParamSpec)
    (hmem : (n, sp) ∈ schema) (hreq : sp.required = true)
    (hnone : List.lookup n args = none) :
    validateArgs schema args = false := by
  simp only [validateArgs, List.all_eq_false]
  exact ⟨(n, sp), hmem, by simp [hnone, hreq]⟩

/-- A schema row whose supplied value has the wrong type makes validation
fail. -/
theorem validateArgs_false_wrongtype (schema : List (String × ParamSpec))
    (args : List (String × JVal)) (n : String) (sp : ParamSpec) (v : JVal)
    (hmem : (n, sp) ∈ schema) (hsome : List.lookup n args = some v)
    (hty : checkType sp.ptype v = false) :
    validateArgs schema args = false := by
  simp only [validateArgs, List.all_eq_false]
  exact ⟨(n, sp), hmem, by simp [hsome, hty]⟩

/-- A failed validation reaches no handler: the invocation returns the
validation error and issues no upstream request. -/
theorem callTool_validation_failure (env : Env) (oracle : String → HttpResponse)
    (t : ToolName) (args : List (String × JVal))
    (h : validateArgs (schemaOf t) args = false) :
    callTool env oracle t args = ⟨[], .error .validationError⟩ := by
  simp [callTool, h]

/-- A configured default campaign id is never the empty string
(`process.env.KANKA_CAMPAIGN_ID || null` maps the empty string to
`null`). -/
theorem defaultCampaignId_nonempty (env : Env) (d : String)
    (h : defaultCampaignId env = some d) : d ≠ "" := by
  unfold defaultCampaignId at h
  by_cases ht : jsTruthy env.kankaCampaignId = true
  · rw [if_pos ht] at h
    intro hd
    subst hd
    rw [h] at ht
    simp [jsTruthy] at ht
  · rw [if_neg ht] at h
    exact absurd h (by simp)

/-! ## The claims -/

/-- Claim C1: for `list_entities`, `get_entity` and `search_by_name` the
campaign identifier of the upstream request is resolved in this order: the
explicit `campaign_id` parameter when given (a nonempty string — the
empty-string edge case behaves as absent), otherwise the configured
default, and when neither is present the invocation fails with the
missing-campaign `ConfigError` and no upstream call is made. -/
theorem campaign_id_resolution (env : Env) (oracle : String → HttpResponse)
    (entity name : String) (id : Int) :
    (∀ cid : String, cid ≠ "" →
      (listEntitiesHandler env oracle (some cid) entity).requests =
        [⟨listEntitiesPath cid entity, "GET"⟩] ∧
      (getEntityHandler env oracle (some cid) entity id).requests =
        [⟨getEntityPath cid entity id, "GET"⟩] ∧
      (searchByNameHandler env oracle (some cid) entity name).requests =
        [⟨searchByNamePath cid entity name, "GET"⟩]) ∧
    (∀ d : String, defaultCampaignId env = some d →
      (listEntitiesHandler env oracle none entity).requests =
        [⟨listEntitiesPath d entity, "GET"⟩] ∧
      (getEntityHandler env oracle none entity id).requests =
        [⟨getEntityPath d entity id, "GET"⟩] ∧
      (searchByNameHandler env oracle none entity name).requests =
        [⟨searchByNamePath d entity name, "GET"⟩]) ∧
    (defaultCampaignId env = none →
      listEntitiesHandler env oracle none entity = noCallConfigError ∧
      getEntityHandler env oracle none entity id = noCallConfigError ∧
      searchByNameHandler env oracle none entity name = noCallConfigError) := by
  refine ⟨?_, ?_, ?_⟩
  · intro cid hcid
    refine ⟨?_, ?_, ?_⟩ <;>
      simp [listEntitiesHandler, getEntityHandler, searchByNameHandler,
        jsOrStr, jsTruthy, hcid, runGet]
  · intro d hd
    have hne := defaultCampaignId_nonempty env d hd
    refine ⟨?_, ?_, ?_⟩ <;>
      simp [listEntitiesHandler, getEntityHandler, searchByNameHandler,
        jsOrStr, jsTruthy, hd, hne, runGet]
  · intro hd
    refine ⟨?_, ?_, ?_⟩ <;>
      simp [listEntitiesHandler, getEntityHandler, searchByNameHandler,
        jsOrStr, jsTruthy, hd]

/-- Witness for C1 at concrete inputs: explicit campaign "7", default
campaign "9", and no campaign at all. -/
theorem campaign_id_resolution_witness :
    (listEntitiesHandler ⟨some "t", none, none⟩
        (fun _ => ⟨200, "OK", some "", some .jnull⟩) (some "7") "characters").requests =
      [⟨listEntitiesPath "7" "characters", "GET"⟩] ∧
    (getEntityHandler ⟨some "t", some "9", none⟩
        (fun _ => ⟨200, "OK", some "", some .jnull⟩) none "characters" 5).requests =
      [⟨getEntityPath "9" "characters" 5, "GET"⟩] ∧
    listEntitiesHandler ⟨some "t", none, none⟩
        (fun _ => ⟨200, "OK", some "", some .jnull⟩) none "characters" = noCallConfigError := by
  refine ⟨?_, ?_, ?_⟩
  · exact ((campaign_id_resolution ⟨some "t", none, none⟩ _ "characters" "x" 5).1
      "7" (by decide)).1
  · exact ((campaign_id_resolution ⟨some "t", some "9", none⟩ _ "characters" "x" 5).2.1
      "9" (by decide)).2.1
  · exact ((campaign_id_resolution ⟨some "t", none, none⟩ _ "characters" "x" 5).2.2
      (by decide)).1

/-- Claim C2: in every reachable state of the legacy SSE session
registry, an entry exists for a session identifier exactly while its
subscribe connection is open; after a connection's close event its
identifier is never in the registry again. -/
theorem session_registry_iff_open (s : SSEState) (h : SSEReachable s) :
    (∀ sid, sid ∈ s.registry ↔ connOpen s sid) ∧
    (∀ sid, sid ∈ s.closed → sid ∉ s.registry) := by
  obtain ⟨-, -, hiff⟩ := sse_invariant s h
  exact ⟨fun sid => hiff sid, fun sid hc hr => ((hiff sid).mp hr).2 hc⟩

/-- Witness for C2: subscribe session "a", then close it; afterwards "a"
is not in the registry. -/
theorem session_registry_iff_open_witness :
    "a" ∉ (SSEState.mk (List.erase ["a"] "a") ["a"] ["a"]).registry := by
  have h1 : SSEReachable ⟨["a"], ["a"], []⟩ :=
    .step .init (.subscribe _ "a" (by simp))
  have h2 : SSEReachable ⟨List.erase ["a"] "a", ["a"], ["a"]⟩ :=
    .step h1 (.close _ "a" (by simp) (by simp))
  exact (session_registry_iff_open _ h2).2 "a" (by simp)

/-- Claim C3: a non-2xx upstream response makes the client fail with an
error carrying the status code, the status text, and the best-effort body
text — the empty string when reading the body itself failed — and no JSON
value is returned. -/
theorem upstream_non2xx_error (resp : HttpResponse)
    (h : ¬ (200 ≤ resp.status ∧ resp.status ≤ 299)) :
    kanka resp = .upstreamError resp.status resp.statusText (resp.bodyTextRead.getD "") ∧
    (resp.bodyTextRead = none →
      kanka resp = .upstreamError resp.status resp.statusText "") ∧
    (∀ j, kanka resp ≠ .success j) := by
  have hok : resOk resp = false := by
    simp [resOk]
    omega
  have hk : kanka resp =
      .upstreamError resp.status resp.statusText (resp.bodyTextRead.getD "") := by
    simp [kanka, hok]
  refine ⟨hk, fun hb => by simp [hk, hb], fun j hj => ?_⟩
  rw [hk] at hj
  exact KankaResult.noConfusion hj

/-- Witness for C3: a 404 with readable body, and a 500 whose body read
failed. -/
theorem upstream_non2xx_error_witness :
    kanka ⟨404, "Not Found", some "missing", none⟩ =
      .upstreamError 404 "Not Found" "missing" ∧
    kanka ⟨500, "Server Error", none, none⟩ =
      .upstreamError 500 "Server Error" "" := by
  constructor
  · exact (upstream_non2xx_error ⟨404, "Not Found", some "missing", none⟩ (by decide)).1
  · exact (upstream_non2xx_error ⟨500, "Server Error", none, none⟩ (by decide)).2.1 rfl

/-- Claim C4: a `POST /messages` whose `sessionId` has no registered
entry is answered with HTTP 400 and the fixed message, dispatches
nothing, and leaves the registry unchanged. -/
theorem post_unknown_session_400 (reg : List String) (sessionId : Option String)
    (h : lookupSession reg sessionId = none) :
    postMessages reg sessionId =
      (.clientError 400 "No transport for sessionId", reg) ∧
    (∀ sid, (postMessages reg sessionId).1 ≠ PostOutcome.dispatched sid) := by
  have hp : postMessages reg sessionId =
      (.clientError 400 "No transport for sessionId", reg) := by
    unfold postMessages
    rw [h]
  exact ⟨hp, fun sid hd => by rw [hp] at hd; exact PostOutcome.noConfusion hd⟩

/-- Witness for C4: posting with an unknown session id against a registry
holding "s1". -/
theorem post_unknown_session_400_witness :
    postMessages ["s1"] (some "nope") =
      (.clientError 400 "No transport for sessionId", ["s1"]) :=
  (post_unknown_session_400 ["s1"] (some "nope") (by decide)).1

/-- Claim C5: for every one of the five tools, an invocation missing a
required parameter or supplying a wrongly-typed one is rejected by schema
validation before the handler runs, so no upstream request is issued. -/
theorem validation_rejects_before_call (env : Env) (oracle : String → HttpResponse)
    (t : ToolName) (args : List (String × JVal))
    (h : (∃ n sp, (n, sp) ∈ schemaOf t ∧ sp.required = true ∧
            List.lookup n args = none) ∨
         (∃ n sp v, (n, sp) ∈ schemaOf t ∧ List.lookup n args = some v ∧
            checkType sp.ptype v = false)) :
    callTool env oracle t args = ⟨[], .error .validationError⟩ ∧
    (callTool env oracle t args).requests = [] := by
  have hval : validateArgs (schemaOf t) args = false := by
    rcases h with ⟨n, sp, hmem, hreq, hnone⟩ | ⟨n, sp, v, hmem, hsome, hty⟩
    · exact validateArgs_false_missing _ _ n sp hmem hreq hnone
    · exact validateArgs_false_wrongtype _ _ n sp v hmem hsome hty
  have hc := callTool_validation_failure env oracle t args hval
  exact ⟨hc, by rw [hc]⟩

/-- Witness for C5: `get_entity` invoked without its required numeric
`id`. -/
theorem validation_rejects_before_call_witness :
    callTool ⟨some "t", none, none⟩ (fun _ => ⟨200, "OK", some "", some .jnull⟩)
      .getEntity [("entity", .jstr "characters")] = ⟨[], .error .validationError⟩ :=
  (validation_rejects_before_call ⟨some "t", none, none⟩
    (fun _ => ⟨200, "OK", some "", some .jnull⟩) .getEntity
    [("entity", .jstr "characters")]
    (Or.inl ⟨"id", ⟨.pnumber, true⟩, by simp [schemaOf, getEntitySchema], rfl, rfl⟩)).1

/-- Counterexample to claim C6 as stated: "dragons" is not one of the
fixed entity-type names (they appear only in the parameter's description
string), yet the invocation passes validation and an upstream request is
issued. -/
theorem entity_enum_not_enforced :
    "dragons" ∉ entityTypeNames ∧
    validateArgs listEntitiesSchema
      [("campaign_id", .jstr "1"), ("entity", .jstr "dragons")] = true ∧
    (callTool ⟨some "t", none, none⟩ (fun _ => ⟨200, "OK", some "", some .jnull⟩)
        .listEntities
        [("campaign_id", .jstr "1"), ("entity", .jstr "dragons")]).requests =
      [⟨listEntitiesPath "1" "dragons", "GET"⟩] := by
  refine ⟨by decide, rfl, rfl⟩

/-- Claim C6 as amended: for `list_entities` the `entity` parameter is
required and must be a string; an invocation missing it (or giving it a
non-string) is rejected before any upstream call, but any string value —
inside or outside the documented fixed set of entity-type names — passes
validation and is forwarded upstream. -/
theorem list_entities_entity_validation (env : Env)
    (oracle : String → HttpResponse) (e cid : String) (hcid : cid ≠ "") :
    validateArgs listEntitiesSchema
      [("campaign_id", .jstr cid), ("entity", .jstr e)] = true ∧
    (callTool env oracle .listEntities
        [("campaign_id", .jstr cid), ("entity", .jstr e)]).requests =
      [⟨listEntitiesPath cid e, "GET"⟩] ∧
    (∀ args, List.lookup "entity" args = none →
      callTool env oracle .listEntities args = ⟨[], .error .validationError⟩) ∧
    (∀ args v, List.lookup "entity" args = some v → checkType .pstring v = false →
      callTool env oracle .listEntities args = ⟨[], .error .validationError⟩) := by
  have hval : validateArgs listEntitiesSchema
      [("campaign_id", .jstr cid), ("entity", .jstr e)] = true := by
    simp [validateArgs, listEntitiesSchema, List.lookup, checkType]
  refine ⟨hval, ?_, ?_, ?_⟩
  · have hargs : getStrArg [("campaign_id", .jstr cid), ("entity", .jstr e)]
        "campaign_id" = some cid := by
      simp [getStrArg, List.lookup]
    have hent : getStrArgD [("campaign_id", .jstr cid), ("entity", .jstr e)]
        "entity" = e := by
      simp [getStrArgD, getStrArg, List.lookup]
    simp [callTool, schemaOf, hval, hargs, hent, listEntitiesHandler, jsOrStr,
      jsTruthy, hcid, runGet]
  · intro args hnone
    exact callTool_validation_failure env oracle .listEntities args
      (validateArgs_false_missing (schemaOf .listEntities) args "entity"
        ⟨.pstring, true⟩ (by simp [schemaOf, listEntitiesSchema]) rfl hnone)
  · intro args v hsome hty
    exact callTool_validation_failure env oracle .listEntities args
      (validateArgs_false_wrongtype (schemaOf .listEntities) args "entity"
        ⟨.pstring, true⟩ v (by simp [schemaOf, listEntitiesSchema]) hsome hty)

/-- Witness for the amended C6: entity "dragons" with campaign "1" is
accepted and forwarded; an invocation without `entity` is rejected. -/
theorem list_entities_entity_validation_witness :
    (callTool ⟨some "t", none, none⟩ (fun _ => ⟨200, "OK", some "", some .jnull⟩)
        .listEntities
        [("campaign_id", .jstr "1"), ("entity", .jstr "dragons")]).requests =
      [⟨listEntitiesPath "1" "dragons", "GET"⟩] ∧
    callTool ⟨some "t", none, none⟩ (fun _ => ⟨200, "OK", some "", some .jnull⟩)
        .listEntities [("campaign_id", .jstr "1")] =
      ⟨[], .error .validationError⟩ := by
  constructor
  · exact (list_entities_entity_validation ⟨some "t", none, none⟩
      (fun _ => ⟨200, "OK", some "", some .jnull⟩) "dragons" "1" (by decide)).2.1
  · exact (list_entities_entity_validation ⟨some "t", none, none⟩
      (fun _ => ⟨200, "OK", some "", some .jnull⟩) "dragons" "1" (by decide)).2.2.1
      [("campaign_id", .jstr "1")] rfl

/-- Claim C7: whenever the upstream client hands a JSON value to one of
the five tool handlers, the handler's result is a single text content
block holding the pretty-printed serialization of that value, and parsing
that text recovers the identical JSON value. -/
theorem handler_json_roundtrip (env : Env) (oracle : String → HttpResponse)
    (cid entity name pathArg : String) (id : Int) (j : JVal) :
    (kanka (oracle listCampaignsPath) = .success j →
      (listCampaignsHandler oracle).result =
        .content [.text (stringifyPretty j)]) ∧
    (cid ≠ "" → kanka (oracle (listEntitiesPath cid entity)) = .success j →
      (listEntitiesHandler env oracle (some cid) entity).result =
        .content [.text (stringifyPretty j)]) ∧
    (cid ≠ "" → kanka (oracle (getEntityPath cid entity id)) = .success j →
      (getEntityHandler env oracle (some cid) entity id).result =
        .content [.text (stringifyPretty j)]) ∧
    (cid ≠ "" → kanka (oracle (searchByNamePath cid entity name)) = .success j →
      (searchByNameHandler env oracle (some cid) entity name).result =
        .content [.text (stringifyPretty j)]) ∧
    (kanka (oracle pathArg) = .success j →
      (rawGetHandler oracle pathArg).result =
        .content [.text (stringifyPretty j)]) ∧
    parseJson (stringifyPretty j) = some j := by
  refine ⟨?_, ?_, ?_, ?_, ?_, stringify_parse_roundtrip j⟩
  · intro hk
    simp [listCampaignsHandler, runGet, hk]
  · intro hcid hk
    simp [listEntitiesHandler, jsOrStr, jsTruthy, hcid, runGet, hk]
  · intro hcid hk
    simp [getEntityHandler, jsOrStr, jsTruthy, hcid, runGet, hk]
  · intro hcid hk
    simp [searchByNameHandler, jsOrStr, jsTruthy, hcid, runGet, hk]
  · intro hk
    simp [rawGetHandler, runGet, hk]

/-- Witness for C7 at the value `{"a": 42}`: the emitted text is the
expected pretty-printed JSON document and parses back to the value. -/
theorem handler_json_roundtrip_witness :
    (listCampaignsHandler
        (fun _ => ⟨200, "OK", some "",
          some (.jobj (.cons "a" (.jnum 42) .nil))⟩)).result =
      .content [.text (stringifyPretty (.jobj (.cons "a" (.jnum 42) .nil)))] ∧
    parseJson (stringifyPretty (.jobj (.cons "a" (.jnum 42) .nil))) =
      some (.jobj (.cons "a" (.jnum 42) .nil)) ∧
    stringifyPretty (.jobj (.cons "a" (.jnum 42) .nil)) =
      "\x7b\n  \"a\": 42\n\x7d" := by
  refine ⟨?_, ?_, rfl⟩
  · exact (handler_json_roundtrip ⟨some "t", none, none⟩
      (fun _ => ⟨200, "OK", some "", some (.jobj (.cons "a" (.jnum 42) .nil))⟩)
      "1" "characters" "x" "/campaigns" 1 (.jobj (.cons "a" (.jnum 42) .nil))).1 rfl
  · exact (handler_json_roundtrip ⟨some "t", none, none⟩
      (fun _ => ⟨200, "OK", some "", some (.jobj (.cons "a" (.jnum 42) .nil))⟩)
      "1" "characters" "x" "/campaigns" 1
      (.jobj (.cons "a" (.jnum 42) .nil))).2.2.2.2.2

/-- Claim C8: `get_entity` with entity "characters", id 42, no explicit
campaign and a configured default issues exactly one upstream GET to
`/campaigns/<default>/characters/42` and wraps that response's JSON
body. -/
theorem get_entity_default_campaign (env : Env) (oracle : String → HttpResponse)
    (d : String) (j : JVal) (hd : defaultCampaignId env = some d)
    (hresp : kanka (oracle (getEntityPath d "characters" 42)) = .success j) :
    callTool env oracle .getEntity [("entity", .jstr "characters"), ("id", .jnum 42)] =
      ⟨[⟨getEntityPath d "characters" 42, "GET"⟩],
        .content [.text (stringifyPretty j)]⟩ ∧
    getEntityPath d "characters" 42 = "/campaigns/" ++ d ++ "/characters/42" := by
  have hne := defaultCampaignId_nonempty env d hd
  constructor
  · have h1 : callTool env oracle .getEntity
        [("entity", .jstr "characters"), ("id", .jnum 42)] =
        getEntityHandler env oracle none "characters" 42 := rfl
    rw [h1]
    simp [getEntityHandler, jsOrStr, jsTruthy, hd, hne, runGet, hresp]
  · have h42 : jsNumToString 42 = "42" := rfl
    simp [getEntityPath, h42, String.append_assoc]

/-- Witness for C8: default campaign "64", upstream body `"ok"`. -/
theorem get_entity_default_campaign_witness :
    callTool ⟨some "t", some "64", none⟩
      (fun _ => ⟨200, "OK", some "", some (.jstr "ok")⟩)
      .getEntity [("entity", .jstr "characters"), ("id", .jnum 42)] =
      ⟨[⟨"/campaigns/64/characters/42", "GET"⟩],
        .content [.text (stringifyPretty (.jstr "ok"))]⟩ := by
  have h := (get_entity_default_campaign ⟨some "t", some "64", none⟩
    (fun _ => ⟨200, "OK", some "", some (.jstr "ok")⟩) "64" (.jstr "ok") rfl rfl).1
  rw [h]
  rfl

/-- Claim C9: when the API token is absent from the environment, startup
exits with code 1 before binding any listen port; the process never
reaches the listening state. -/
theorem token_missing_exits (env : Env) (h : env.kankaToken = none) :
    startup env = .exited 1 ∧ ∀ p, startup env ≠ .listening p := by
  have hs : startup env = .exited 1 := by
    simp [startup, jsTruthy, h]
  exact ⟨hs, fun p hp => by rw [hs] at hp; exact StartupResult.noConfusion hp⟩

/-- Witness for C9: empty environment. -/
theorem token_missing_exits_witness :
    startup ⟨none, some "5", some 4000⟩ = .exited 1 :=
  (token_missing_exits ⟨none, some "5", some 4000⟩ rfl).1

/-- Claim C10: a `campaign_id` supplied as the empty string behaves
exactly like an absent one in all three campaign-scoped tools: the
configured default is used when present, otherwise the invocation fails
with the missing-campaign error. -/
theorem empty_campaign_id_as_absent (env : Env) (oracle : String → HttpResponse)
    (entity name : String) (id : Int) :
    listEntitiesHandler env oracle (some "") entity =
      listEntitiesHandler env oracle none entity ∧
    getEntityHandler env oracle (some "") entity id =
      getEntityHandler env oracle none entity id ∧
    searchByNameHandler env oracle (some "") entity name =
      searchByNameHandler env oracle none entity name ∧
    (defaultCampaignId env = none →
      listEntitiesHandler env oracle (some "") entity = noCallConfigError ∧
      getEntityHandler env oracle (some "") entity id = noCallConfigError ∧
      searchByNameHandler env oracle (some "") entity name = noCallConfigError) := by
  have hjs : jsOrStr (some "") (defaultCampaignId env) =
      jsOrStr none (defaultCampaignId env) := by
    simp [jsOrStr, jsTruthy]
  refine ⟨?_, ?_, ?_, ?_⟩
  · simp only [listEntitiesHandler, hjs]
  · simp only [getEntityHandler, hjs]
  · simp only [searchByNameHandler, hjs]
  · intro hd
    refine ⟨?_, ?_, ?_⟩ <;>
      simp [listEntitiesHandler, getEntityHandler, searchByNameHandler, hjs,
        jsOrStr, jsTruthy, hd]

/-- Witness for C10: with a default campaign configured the empty-string
call equals the absent call; without one it is the missing-campaign
error. -/
theorem empty_campaign_id_as_absent_witness :
    getEntityHandler ⟨some "t", some "9", none⟩
        (fun _ => ⟨200, "OK", some "", some .jnull⟩) (some "") "characters" 1 =
      getEntityHandler ⟨some "t", some "9", none⟩
        (fun _ => ⟨200, "OK", some "", some .jnull⟩) none "characters" 1 ∧
    listEntitiesHandler ⟨some "t", none, none⟩
        (fun _ => ⟨200, "OK", some "", some .jnull⟩) (some "") "characters" =
      noCallConfigError := by
  constructor
  · exact (empty_campaign_id_as_absent ⟨some "t", some "9", none⟩
      (fun _ => ⟨200, "OK", some "", some .jnull⟩) "characters" "x" 1).2.1
  · exact ((empty_campaign_id_as_absent ⟨some "t", none, none⟩
      (fun _ => ⟨200, "OK", some "", some .jnull⟩) "characters" "x" 1).2.2.2 rfl).1

end KankaServer
